import Mathlib

/-!
# Shallow embedding of the simple-ethereum-cli-wallet core

This file embeds the `SimpleWallet` class of the repository
(`src/src/index.ts` and the extended variant `src/unnamed/part_000`; the two
copies of the class differ only in where the local `createWalletClient` value
is constructed and in CLI plumbing, so a single embedding covers both) and
proves the specified properties of `transfer`, `listWalletsWithBalance`
(the spec's `scan`), `getWalletAddress` / `getPrivateKey` (the spec's
`deriveAddress` / `revealPrivateKey`) and `getSeedPhrases`.

Modelling conventions:
* The remote ledger (viem's `publicClient` / `walletClient`) is an explicit
  oracle (`Oracle`), one field per remote operation.  Per spec §4.2 each
  operation has exactly one failure kind (`NetworkError` for the two reads,
  `RejectedTransaction` for submission, `Timeout` for the receipt wait), so
  an operation's outcome is an `Option`: `none` is that operation's failure.
* Remote calls are recorded in a chronological trace (`List Call`), so that
  call-counting claims ("no remote call", "at most one submit") are
  statable.  Key derivation (`mnemonicToAccount`) is local, not remote, and
  is not traced.
* `mnemonicToAccount` is a third-party pure function (viem); it is a
  parameter `deriv : String → Nat → Option Account` of every embedded
  operation, with `none` standing for its `InvalidSeedPhrase` throw.
* Wei amounts are exact integers (`Nat` for balances, `Int` for parsed
  amounts, which may be negative).  The first affordability check in the
  source compares IEEE-754 doubles `parseFloat(amountEth) >
  parseFloat(formatEther(balance))`; the embedding compares the exact
  values.  Correct rounding of decimal literals to doubles is monotone, so
  the double comparison and the exact comparison can disagree only when the
  exact amount exceeds the balance but both round to equal doubles — in
  which case the source still fails the exact second check
  (`totalNeeded > balance`, BigInt) with the same `InsufficientFunds`
  outcome, so every property stated here is insensitive to the difference.
* The amount string of a transfer is abstracted by `AmountStr`: either a
  plain (signed) decimal numeral with its exact wei value (strings of at
  most 18 fractional digits, where viem's `parseEther` is exact), or a
  string that is not a decimal numeral at all, on which JavaScript's
  `parseFloat` returns `NaN` (every comparison false) and viem's
  `parseEther` throws.
-/

/-- Error kinds of the spec's §7 taxonomy, plus the decimal-parse throw of
viem's `parseEther` (which the source does not map to any taxonomy kind). -/
inductive WErr
  | invalidInput
  | invalidSeedPhrase
  | insufficientFunds
  | networkError
  | rejectedTransaction
  | timeout
  | invalidDecimal
deriving DecidableEq, Repr

deriving instance DecidableEq for Except

/-- The result of `mnemonicToAccount`: an address plus the HD node's
optional private key (`hdKey.privateKey` may be absent, the source guards
for that in `getPrivateKey`). Bytes are modelled as `Nat` values < 256. -/
structure Account where
  address : String
  privateKey : Option (List Nat)
deriving DecidableEq, Repr

/-- One remote ledger call, as issued by the source through viem's
`publicClient` / `walletClient`. -/
inductive Call
  | getBalance (address : String)
  | getGasPrice
  | sendTransaction (fromAddress toAddress : String) (value : Int)
  | waitReceipt (hash : String)
deriving DecidableEq, Repr

/-- The remote ledger: one field per operation the wallet consumes, `none`
being the operation's spec-assigned failure kind (§4.2): `NetworkError` for
`balance` and `gasPrice`, `RejectedTransaction` for `send`, `Timeout` for
`receipt`. -/
structure Oracle where
  balance : String → Option Nat
  gasPrice : Option Nat
  send : String → String → Int → Option String
  receipt : String → Option Nat

/-- The amount argument of `transfer`, abstracted to its parse behaviour:
`decimal w` is a plain decimal numeral whose exact value is `w` wei
(possibly negative); `nonNumeric` is a string on which `parseFloat` yields
`NaN` and `parseEther` throws.  (Strings that `parseFloat` partially
consumes but `parseEther` rejects, or with more than 18 fractional digits,
are not needed by any claim and are left out of the model.) -/
inductive AmountStr
  | decimal (wei : Int)
  | nonNumeric
deriving DecidableEq, Repr

/-- The source's first affordability check (`amount > balanceEth`,
lines 152–155 of part_000): exact comparison for a decimal numeral;
`NaN > x` is `false` for a non-numeric string. -/
def amountExceedsBalance : AmountStr → Nat → Bool
  | .decimal w, b => w > (b : Int)
  | .nonNumeric, _ => false

/-- viem's `parseEther`: the exact wei value of a decimal numeral, a throw
(`none`) otherwise. -/
def parseEther : AmountStr → Option Int
  | .decimal w => some w
  | .nonNumeric => none

/-- `isAddress` of viem, as used for recipient validation: `0x` followed by
40 hexadecimal digits.  (viem additionally rejects mixed-case strings with
a bad EIP-55 checksum; the claims only use inputs on which the two
versions agree.) -/
def isAddress (s : String) : Bool :=
  let cs := s.toList
  cs.length = 42 && cs.take 2 = ['0', 'x'] && (cs.drop 2).all fun c =>
    c.isDigit || ('a' ≤ c && c ≤ 'f') || ('A' ≤ c && c ≤ 'F')

/-- Decimal digits of `n`, most significant first, via `toString`. -/
def natDigits (n : Nat) : List Char := (toString n).toList

/-- viem's `formatEther`: the decimal display string of a wei amount,
integer part, then a `.` and the 18-digit zero-padded fraction with
trailing zeros removed (omitted when the fraction is zero). -/
def formatEther (wei : Nat) : String :=
  let intPart := toString (wei / 10 ^ 18)
  let fracDigits := natDigits (wei % 10 ^ 18)
  let padded := List.replicate (18 - fracDigits.length) '0' ++ fracDigits
  let trimmed := (padded.reverse.dropWhile (· = '0')).reverse
  if trimmed.isEmpty then intPart else intPart ++ "." ++ String.mk trimmed

/-- JavaScript's `split(" ")` on a character list: splits at every single
space, keeping empty segments (`split` of the empty string is `[""]`). -/
def splitOnSpace : List Char → List (List Char)
  | [] => [[]]
  | c :: rest =>
    match splitOnSpace rest with
    | [] => [[]]
    | w :: ws => if c = ' ' then [] :: w :: ws else (c :: w) :: ws

/-- JavaScript's `join(" ")`. -/
def joinSpace : List String → String
  | [] => ""
  | [w] => w
  | w :: ws => w ++ " " ++ joinSpace ws

/-- The scanner's seed-phrase preview
(`seedPhrase.split(" ").slice(0, 3).join(" ") + "..."`). -/
def truncatePhrase (p : String) : String :=
  joinSpace (((splitOnSpace p.toList).map String.mk).take 3) ++ "..."

/-- `SimpleWallet.transfer` (part_000 lines 135–196, index.ts 118–178):
validate recipient, derive signer, fetch balance, amount-only check, fetch
gas price, amount+fee check, submit, wait for the receipt.  Returns the
outcome (the transaction hash on success) together with the chronological
trace of remote ledger calls. -/
def transfer (deriv : String → Nat → Option Account) (env : Oracle)
    (seedPhrase : String) (walletIndex : Nat)
    (toAddress : String) (amountEth : AmountStr) :
    Except WErr String × List Call :=
  if ¬ isAddress toAddress then
    (.error .invalidInput, [])
  else match deriv seedPhrase walletIndex with
    | none => (.error .invalidSeedPhrase, [])
    | some account =>
      match env.balance account.address with
      | none => (.error .networkError, [.getBalance account.address])
      | some balance =>
        if amountExceedsBalance amountEth balance then
          (.error .insufficientFunds, [.getBalance account.address])
        else match env.gasPrice with
          | none =>
            (.error .networkError,
             [.getBalance account.address, .getGasPrice])
          | some gasPrice =>
            match parseEther amountEth with
            | none =>
              (.error .invalidDecimal,
               [.getBalance account.address, .getGasPrice])
            | some amountWei =>
              let gasCost : Int := 21000 * gasPrice
              let totalNeeded : Int := amountWei + gasCost
              if totalNeeded > (balance : Int) then
                (.error .insufficientFunds,
                 [.getBalance account.address, .getGasPrice])
              else
                match env.send account.address toAddress amountWei with
                | none =>
                  (.error .rejectedTransaction,
                   [.getBalance account.address, .getGasPrice,
                    .sendTransaction account.address toAddress amountWei])
                | some hash =>
                  match env.receipt hash with
                  | none =>
                    (.error .timeout,
                     [.getBalance account.address, .getGasPrice,
                      .sendTransaction account.address toAddress amountWei,
                      .waitReceipt hash])
                  | some _ =>
                    (.ok hash,
                     [.getBalance account.address, .getGasPrice,
                      .sendTransaction account.address toAddress amountWei,
                      .waitReceipt hash])

/-- Number of `sendTransaction` calls in a trace. -/
def submitCount (t : List Call) : Nat :=
  t.countP fun c => match c with
    | .sendTransaction _ _ _ => true
    | _ => false

/-- One `WalletInfo` record of the scanner (part_000 lines 15–21):
raw balance as a string, display balance, account index, truncated
seed-phrase preview. -/
structure WalletInfo where
  address : String
  balance : String
  balanceEth : String
  index : Nat
  seedPhrase : String
deriving DecidableEq, Repr

/-- The body of the scanner's `try` block for one (phrase, index) pair
(part_000 lines 107–122): derive, query the balance, and build the
`WalletInfo` when the balance is positive (`none` when it is zero). -/
def tryEntry (deriv : String → Nat → Option Account) (env : Oracle)
    (p : String) (i : Nat) : Except WErr (Option WalletInfo) :=
  match deriv p i with
  | none => .error .invalidSeedPhrase
  | some account =>
    match env.balance account.address with
    | none => .error .networkError
    | some balance =>
      .ok (if 0 < balance then
        some ⟨account.address, toString balance, formatEther balance,
              i, truncatePhrase p⟩
      else none)

/-- One loop iteration of the scanner: the `try` body with its catch-all
`catch` block (part_000 lines 123–125), which logs the error to the error
channel and continues, contributing nothing to the result. -/
def scanStep (deriv : String → Nat → Option Account) (env : Oracle)
    (p : String) (i : Nat) : Option WalletInfo :=
  match tryEntry deriv env p i with
  | .error _ => none
  | .ok o => o

/-- `SimpleWallet.listWalletsWithBalance` (part_000 lines 102–130): for
each configured seed phrase in order, for each index below `maxIndex` in
order, run one guarded iteration and push its record (if any) onto the
accumulator. -/
def listWalletsWithBalance (deriv : String → Nat → Option Account)
    (env : Oracle) (seedPhrases : List String) (maxIndex : Nat) :
    List WalletInfo :=
  seedPhrases.foldl (fun acc p =>
    (List.range maxIndex).foldl
      (fun acc2 i => acc2 ++ (scanStep deriv env p i).toList) acc) []

/-- The canonical (phrase, index) enumeration of the spec's §4.3: phrase
order, then index order. -/
def scanPairs (seedPhrases : List String) (maxIndex : Nat) :
    List (String × Nat) :=
  seedPhrases.flatMap fun p => (List.range maxIndex).map fun i => (p, i)

/-- The mutable per-instance state of `SimpleWallet` (part_000 lines
23–26), as far as the embedded operations can read it: the configured
seed phrases and the RPC URL. -/
structure WalletState where
  seedPhrases : List String
  rpcUrl : String
deriving DecidableEq, Repr

/-- `SimpleWallet.getAccountFromSeed` (part_000 lines 76–83): a direct
pass-through to `mnemonicToAccount` with the given account index; the
wallet state is in scope (it is a method) but unused. -/
def getAccountFromSeed (deriv : String → Nat → Option Account)
    (_w : WalletState) (seedPhrase : String) (index : Nat) :
    Option Account :=
  deriv seedPhrase index

/-- `SimpleWallet.getWalletAddress` (part_000 lines 201–204): the address
of the derived account (`none` models the `InvalidSeedPhrase` throw of the
derivation). -/
def getWalletAddress (deriv : String → Nat → Option Account)
    (w : WalletState) (seedPhrase : String) (index : Nat) :
    Option String :=
  (getAccountFromSeed deriv w seedPhrase index).map Account.address

/-- Lower-case hex digit of a value < 16. -/
def hexChar (n : Nat) : Char :=
  if n < 10 then Char.ofNat (48 + n) else Char.ofNat (87 + n)

/-- `Buffer.toString("hex")` of a byte list: two lower-case hex digits per
byte. -/
def bytesToHex (bs : List Nat) : String :=
  String.join (bs.map fun b => String.mk [hexChar (b / 16 % 16), hexChar (b % 16)])

/-- `SimpleWallet.getPrivateKey` (part_000 lines 209–220): derive, read
the HD key's private key (throwing when absent), and return it as a
`0x`-prefixed hex string.  `none` models either throw. -/
def getPrivateKey (deriv : String → Nat → Option Account)
    (w : WalletState) (seedPhrase : String) (index : Nat) :
    Option String :=
  match getAccountFromSeed deriv w seedPhrase index with
  | none => none
  | some account =>
    match account.privateKey with
    | none => none
    | some bytes => some ("0x" ++ bytesToHex bytes)

/-!
## Reference semantics for `getSeedPhrases`

`getSeedPhrases` returns `[...this.seedPhrases]` — a fresh array whose
elements are copied from the instance field.  To state that the returned
array does not alias the internal one, JavaScript arrays-of-strings are
modelled as references into a heap arena: a reference is an index into the
arena, allocation appends, and the wallet instance holds a reference to
its `seedPhrases` array.
-/

/-- A heap arena of string arrays; a reference is an index into `arrays`. -/
structure JsHeap where
  arrays : List (List String)
deriving Repr

/-- Allocate a fresh array holding `v`; returns the new heap and the fresh
reference. -/
def heapAlloc (h : JsHeap) (v : List String) : JsHeap × Nat :=
  (⟨h.arrays ++ [v]⟩, h.arrays.length)

/-- Read the array behind a reference. -/
def heapRead (h : JsHeap) (r : Nat) : List String :=
  h.arrays.getD r []

/-- Overwrite the array behind a reference (models any in-place mutation
of the array the caller received, e.g. `push`, `pop`, index assignment —
the post-mutation contents are arbitrary). -/
def heapWrite (h : JsHeap) (r : Nat) (v : List String) : JsHeap :=
  ⟨h.arrays.set r v⟩

/-- A `SimpleWallet` instance under reference semantics: the reference to
its internal `seedPhrases` array. -/
structure WalletRef where
  seedRef : Nat
deriving DecidableEq, Repr

/-- `SimpleWallet.getSeedPhrases` (part_000 lines 225–227):
`return [...this.seedPhrases]` — allocate a fresh array with the elements
of the internal one and return the fresh reference. -/
def getSeedPhrases (h : JsHeap) (w : WalletRef) : JsHeap × Nat :=
  heapAlloc h (heapRead h w.seedRef)

/-- The balance the scanner observes for one (phrase, index) pair:
derivation then query, `none` when either fails. -/
def pairBalance (deriv : String → Nat → Option Account) (env : Oracle)
    (q : String × Nat) : Option Nat :=
  (deriv q.1 q.2).bind fun a => env.balance a.address

/-- The observed balance of a pair, defaulting to 0 (only used under the
hypothesis that the pair's queries succeed). -/
def theBalance (deriv : String → Nat → Option Account) (env : Oracle)
    (q : String × Nat) : Nat :=
  (pairBalance deriv env q).getD 0

/-- The derived address of a pair, defaulting to `""` (only used under the
hypothesis that the pair's derivation succeeds). -/
def theAddress (deriv : String → Nat → Option Account)
    (q : String × Nat) : String :=
  ((deriv q.1 q.2).map Account.address).getD ""

/-- The `WalletInfo` record the scanner builds for a pair whose queries
succeed with a positive balance. -/
def mkInfo (deriv : String → Nat → Option Account) (env : Oracle)
    (q : String × Nat) : WalletInfo :=
  ⟨theAddress deriv q, toString (theBalance deriv env q),
   formatEther (theBalance deriv env q), q.2, truncatePhrase q.1⟩

/-!
## Helper lemmas about the scanner loops
-/

theorem foldl_append_toList {α β : Type} (f : α → Option β) :
    ∀ (l : List α) (acc : List β),
      l.foldl (fun a x => a ++ (f x).toList) acc = acc ++ l.filterMap f := by
  intro l
  induction l with
  | nil => intro acc; simp
  | cons x xs ih =>
    intro acc
    cases hx : f x <;> simp [List.foldl_cons, ih, hx]

theorem scan_eq_filterMap (deriv : String → Nat → Option Account)
    (env : Oracle) (phrases : List String) (M : Nat) :
    listWalletsWithBalance deriv env phrases M =
      (scanPairs phrases M).filterMap fun q => scanStep deriv env q.1 q.2 := by
  unfold listWalletsWithBalance
  suffices h : ∀ (ps : List String) (acc : List WalletInfo),
      ps.foldl (fun acc p =>
        (List.range M).foldl
          (fun acc2 i => acc2 ++ (scanStep deriv env p i).toList) acc) acc =
        acc ++ (scanPairs ps M).filterMap (fun q => scanStep deriv env q.1 q.2) by
    simpa using h phrases []
  intro ps
  induction ps with
  | nil => intro acc; simp [scanPairs]
  | cons p rest ih =>
    intro acc
    rw [List.foldl_cons, ih, foldl_append_toList]
    simp [scanPairs, List.filterMap_map, List.append_assoc, Function.comp]
    rfl

theorem filterMap_skip_none {α β : Type} [DecidableEq α]
    (f : α → Option β) (q : α) (hq : f q = none) :
    ∀ l : List α, l.filterMap f = (l.filter (· ≠ q)).filterMap f := by
  intro l
  induction l with
  | nil => simp
  | cons x xs ih =>
    by_cases hx : x = q
    · subst hx
      simp [List.filterMap_cons, hq, ih]
    · cases hfx : f x <;>
        simp [List.filterMap_cons, List.filter_cons, hx, hfx, ih]

theorem filterMap_eq_filter_map {α β : Type} (f : α → Option β)
    (p : α → Bool) (g : α → β) :
    ∀ l : List α, (∀ x ∈ l, f x = if p x then some (g x) else none) →
      l.filterMap f = (l.filter p).map g := by
  intro l
  induction l with
  | nil => intro _; simp
  | cons x xs ih =>
    intro h
    have hx := h x (List.mem_cons_self x xs)
    have hxs := ih fun y hy => h y (List.mem_cons_of_mem x hy)
    by_cases hp : p x <;>
      simp [List.filterMap_cons, List.filter_cons, hp, hx, hxs]

theorem length_scanPairs (phrases : List String) (M : Nat) :
    (scanPairs phrases M).length = phrases.length * M := by
  induction phrases with
  | nil => simp [scanPairs]
  | cons p rest ih =>
    simp only [scanPairs, List.flatMap_cons] at *
    simp only [List.length_append, List.length_map, List.length_range, ih,
      List.length_cons]
    ring

theorem mem_scanPairs (phrases : List String) (M : Nat) (q : String × Nat) :
    q ∈ scanPairs phrases M ↔ q.1 ∈ phrases ∧ q.2 < M := by
  unfold scanPairs
  rw [List.mem_flatMap]
  constructor
  · rintro ⟨p, hp, hq⟩
    rw [List.mem_map] at hq
    obtain ⟨i, hi, rfl⟩ := hq
    exact ⟨hp, by simpa using hi⟩
  · rintro ⟨h1, h2⟩
    exact ⟨q.1, h1, List.mem_map.mpr ⟨q.2, by simpa using h2, rfl⟩⟩

theorem nodup_scanPairs (phrases : List String) (M : Nat)
    (h : phrases.Nodup) : (scanPairs phrases M).Nodup := by
  induction phrases with
  | nil => simp [scanPairs]
  | cons p rest ih =>
    simp only [scanPairs, List.flatMap_cons]
    rw [List.nodup_append]
    refine ⟨?_, ?_, ?_⟩
    · exact (List.nodup_range M).map fun i j hij => by
        injection hij
    · exact ih (List.nodup_cons.mp h).2
    · intro a ha hb
      rw [List.mem_map] at ha
      obtain ⟨i, _, rfl⟩ := ha
      have hb2 : (p, i) ∈ scanPairs rest M := hb
      rw [mem_scanPairs] at hb2
      exact (List.nodup_cons.mp h).1 hb2.1


/-!
## Claim theorems
-/

/-- C1: a single `transfer` call issues at most one `sendTransaction` on
the ledger: the trace's submit count is 1 exactly when the call reached
submission (success, remote rejection, or a confirmation timeout — the
three outcomes that exist only after the submit), and 0 for every outcome
of an earlier step (validation, derivation, balance fetch, amount-only
check, fee fetch, amount parse, total-cost check); it is never 2,
regardless of how confirmation ends. -/
theorem transfer_submits_at_most_once
    (deriv : String → Nat → Option Account) (env : Oracle)
    (seedPhrase : String) (walletIndex : Nat)
    (toAddress : String) (amountEth : AmountStr) :
    submitCount (transfer deriv env seedPhrase walletIndex toAddress amountEth).2 ≤ 1 ∧
    submitCount (transfer deriv env seedPhrase walletIndex toAddress amountEth).2 =
      (match (transfer deriv env seedPhrase walletIndex toAddress amountEth).1 with
        | .ok _ => 1
        | .error .rejectedTransaction => 1
        | .error .timeout => 1
        | .error _ => 0) := by
  dsimp only [transfer]
  repeat' split
  all_goals simp_all [submitCount, List.countP, List.countP.go]

/-- C2: with a well-formed recipient, a fetched balance `B`, a fee rate
`p` and the fixed transfer work-units 21000, `transfer` of an exact
decimal amount `a` fails with `InsufficientFunds` (and submits nothing)
when `a > B`; it also fails with `InsufficientFunds` (and submits nothing)
when `a ≤ B` but `a + 21000·p > B`; and it reaches submission exactly when
`a + 21000·p ≤ B`. -/
theorem transfer_affordability
    (deriv : String → Nat → Option Account) (env : Oracle)
    (seedPhrase : String) (walletIndex : Nat) (toAddress : String)
    (a : Int) (acct : Account) (B p : Nat)
    (hto : isAddress toAddress = true)
    (hd : deriv seedPhrase walletIndex = some acct)
    (hB : env.balance acct.address = some B)
    (hp : env.gasPrice = some p) :
    ((B : Int) < a →
      (transfer deriv env seedPhrase walletIndex toAddress (.decimal a)).1 =
        .error .insufficientFunds ∧
      submitCount
        (transfer deriv env seedPhrase walletIndex toAddress (.decimal a)).2 = 0) ∧
    (a ≤ (B : Int) → (B : Int) < a + 21000 * p →
      (transfer deriv env seedPhrase walletIndex toAddress (.decimal a)).1 =
        .error .insufficientFunds ∧
      submitCount
        (transfer deriv env seedPhrase walletIndex toAddress (.decimal a)).2 = 0) ∧
    (submitCount
        (transfer deriv env seedPhrase walletIndex toAddress (.decimal a)).2 = 1 ↔
      a + 21000 * p ≤ (B : Int)) := by
  refine ⟨fun h1 => ?_, fun ha h2 => ?_, ?_⟩
  · dsimp only [transfer]
    simp [hto, hd, hB, hp, amountExceedsBalance, parseEther, h1,
      submitCount, List.countP, List.countP.go]
  · have h1 : ¬ (B : Int) < a := not_lt.mpr ha
    dsimp only [transfer]
    simp [hto, hd, hB, hp, amountExceedsBalance, parseEther, h1, h2,
      submitCount, List.countP, List.countP.go]
  · constructor
    · intro h
      by_contra hgt
      push_neg at hgt
      by_cases h1 : (B : Int) < a
      · dsimp only [transfer] at h
        simp [hto, hd, hB, hp, amountExceedsBalance, parseEther, h1,
          submitCount, List.countP, List.countP.go] at h
      · dsimp only [transfer] at h
        simp [hto, hd, hB, hp, amountExceedsBalance, parseEther, h1, hgt,
          submitCount, List.countP, List.countP.go] at h
    · intro hle
      have hp0 : (0 : Int) ≤ 21000 * p := by positivity
      have h1 : ¬ (B : Int) < a := by omega
      have h2 : ¬ (B : Int) < a + 21000 * p := not_lt.mpr hle
      dsimp only [transfer]
      rcases hs : env.send acct.address toAddress a with _ | hash
      · simp [hto, hd, hB, hp, amountExceedsBalance, parseEther, h1, h2, hs,
          submitCount, List.countP, List.countP.go]
      · rcases hr : env.receipt hash with _ | blk <;>
          simp [hto, hd, hB, hp, amountExceedsBalance, parseEther, h1, h2,
            hs, hr, submitCount, List.countP, List.countP.go]

/-!
## Concrete fixtures for witnesses and counterexamples
-/

/-- A syntactically valid recipient address. -/
def validTo : String := "0xaaaaaaaaaaaaaaaaaaaaaaaaaaaaaaaaaaaaaaaa"

/-- A concrete derivation function: every phrase and index derive, with a
distinct address per (phrase, index). -/
def demoDeriv : String → Nat → Option Account :=
  fun p i => some ⟨"0x" ++ p ++ toString i, some [7, 255]⟩

/-- The account `demoDeriv` yields for phrase `"seed"`, index 0. -/
def demoAcct : Account := ⟨"0xseed0", some [7, 255]⟩

/-- A concrete ledger on which every operation succeeds: every balance is
100000000, the fee rate is 1, submission yields hash `"0xhash"`,
confirmation arrives in block 12. -/
def demoEnv : Oracle where
  balance := fun _ => some 100000000
  gasPrice := some 1
  send := fun _ _ _ => some "0xhash"
  receipt := fun _ => some 12

/-- Like `demoEnv`, but the receipt wait times out. -/
def timeoutEnv : Oracle where
  balance := fun _ => some 100000000
  gasPrice := some 1
  send := fun _ _ _ => some "0xhash"
  receipt := fun _ => none

/-- Witness for C2 at a concrete input: balance 100000000, fee rate 1,
amount 50; the call reaches submission since 50 + 21000·1 ≤ 100000000. -/
theorem transfer_affordability_witness :
    isAddress validTo = true ∧
    ((((100000000 : Nat) : Int) < 50 →
      (transfer demoDeriv demoEnv "seed" 0 validTo (.decimal 50)).1 =
        .error .insufficientFunds ∧
      submitCount
        (transfer demoDeriv demoEnv "seed" 0 validTo (.decimal 50)).2 = 0) ∧
    ((50 : Int) ≤ ((100000000 : Nat) : Int) →
      ((100000000 : Nat) : Int) < 50 + 21000 * (1 : Nat) →
      (transfer demoDeriv demoEnv "seed" 0 validTo (.decimal 50)).1 =
        .error .insufficientFunds ∧
      submitCount
        (transfer demoDeriv demoEnv "seed" 0 validTo (.decimal 50)).2 = 0) ∧
    (submitCount
        (transfer demoDeriv demoEnv "seed" 0 validTo (.decimal 50)).2 = 1 ↔
      (50 : Int) + 21000 * (1 : Nat) ≤ ((100000000 : Nat) : Int))) :=
  ⟨by decide,
   transfer_affordability demoDeriv demoEnv "seed" 0 validTo 50 demoAcct
     100000000 1 (by decide) rfl rfl rfl⟩

/-- C3 counterexample: with a valid recipient and an amount string that is
not a decimal numeral, `transfer` does NOT fail `InvalidInput` with no
remote call — it fetches the balance and the fee rate first, and then
fails with the decimal-parse error of `parseEther`. -/
theorem transfer_amount_validation_cex :
    (transfer demoDeriv demoEnv "seed" 0 validTo .nonNumeric).1 =
      .error .invalidDecimal ∧
    (transfer demoDeriv demoEnv "seed" 0 validTo .nonNumeric).2 =
      [.getBalance "0xseed0", .getGasPrice] ∧
    (transfer demoDeriv demoEnv "seed" 0 validTo .nonNumeric).1 ≠
      .error .invalidInput ∧
    (transfer demoDeriv demoEnv "seed" 0 validTo .nonNumeric).2 ≠ [] := by
  refine ⟨rfl, rfl, by decide, by decide⟩

/-- C3 amended: `transfer` validates only the recipient; the amount is not
validated before remote calls.  A non-numeric amount passes the
`parseFloat`-based balance check (`NaN > x` is false) and fails only at
the `parseEther` conversion, after both the balance fetch and the fee
fetch; a negative decimal amount is never rejected as invalid and even
reaches submission whenever it passes the two affordability checks. -/
theorem transfer_no_amount_validation
    (deriv : String → Nat → Option Account) (env : Oracle)
    (seedPhrase : String) (walletIndex : Nat) (toAddress : String)
    (acct : Account) (B p : Nat)
    (hto : isAddress toAddress = true)
    (hd : deriv seedPhrase walletIndex = some acct)
    (hB : env.balance acct.address = some B)
    (hp : env.gasPrice = some p) :
    ((transfer deriv env seedPhrase walletIndex toAddress .nonNumeric).1 =
       .error .invalidDecimal ∧
     (transfer deriv env seedPhrase walletIndex toAddress .nonNumeric).2 =
       [.getBalance acct.address, .getGasPrice]) ∧
    (∀ w : Int, w < 0 → w + 21000 * p ≤ (B : Int) →
      submitCount
        (transfer deriv env seedPhrase walletIndex toAddress (.decimal w)).2 = 1) := by
  constructor
  · dsimp only [transfer]
    simp [hto, hd, hB, hp, amountExceedsBalance, parseEther]
  · intro w hw hle
    have h1 : ¬ (B : Int) < w := by omega
    have h2 : ¬ (B : Int) < w + 21000 * p := not_lt.mpr hle
    dsimp only [transfer]
    rcases hs : env.send acct.address toAddress w with _ | hash
    · simp [hto, hd, hB, hp, amountExceedsBalance, parseEther, h1, h2, hs,
        submitCount, List.countP, List.countP.go]
    · rcases hr : env.receipt hash with _ | blk <;>
        simp [hto, hd, hB, hp, amountExceedsBalance, parseEther, h1, h2,
          hs, hr, submitCount, List.countP, List.countP.go]

/-- Witness for the amended C3 at a concrete input, including a negative
amount (−3 wei) that reaches submission. -/
theorem transfer_no_amount_validation_witness :
    isAddress validTo = true ∧
    (((transfer demoDeriv demoEnv "seed" 0 validTo .nonNumeric).1 =
        .error .invalidDecimal ∧
      (transfer demoDeriv demoEnv "seed" 0 validTo .nonNumeric).2 =
        [.getBalance demoAcct.address, .getGasPrice]) ∧
     (∀ w : Int, w < 0 → w + 21000 * (1 : Nat) ≤ ((100000000 : Nat) : Int) →
       submitCount
         (transfer demoDeriv demoEnv "seed" 0 validTo (.decimal w)).2 = 1)) :=
  ⟨by decide,
   transfer_no_amount_validation demoDeriv demoEnv "seed" 0 validTo demoAcct
     100000000 1 (by decide) rfl rfl rfl⟩

/-- C4: a malformed recipient address makes `transfer` fail `InvalidInput`
with an empty remote-call trace — no balance fetch, no fee fetch, no
submission, no receipt wait. -/
theorem transfer_invalid_recipient
    (deriv : String → Nat → Option Account) (env : Oracle)
    (seedPhrase : String) (walletIndex : Nat) (toAddress : String)
    (amountEth : AmountStr)
    (hto : isAddress toAddress = false) :
    transfer deriv env seedPhrase walletIndex toAddress amountEth =
      (.error .invalidInput, []) := by
  dsimp only [transfer]
  simp [hto]

/-- Witness for C4 at the concrete malformed recipient `"zzz"`. -/
theorem transfer_invalid_recipient_witness :
    isAddress "zzz" = false ∧
    transfer demoDeriv demoEnv "seed" 0 "zzz" (.decimal 1) =
      (.error .invalidInput, []) :=
  ⟨by decide,
   transfer_invalid_recipient demoDeriv demoEnv "seed" 0 "zzz" (.decimal 1)
     (by decide)⟩

/-- C9: when the call reaches confirmation and the receipt wait times out,
`transfer` reports `Timeout` — an outcome distinct from (and never
reported as) `RejectedTransaction` — and the trace still ends with the
single already-performed submission followed by the one receipt wait:
nothing is undone or retried. -/
theorem transfer_timeout_distinct
    (deriv : String → Nat → Option Account) (env : Oracle)
    (seedPhrase : String) (walletIndex : Nat) (toAddress : String)
    (a : Int) (acct : Account) (B p : Nat) (hash : String)
    (hto : isAddress toAddress = true)
    (hd : deriv seedPhrase walletIndex = some acct)
    (hB : env.balance acct.address = some B)
    (hp : env.gasPrice = some p)
    (haff : a + 21000 * p ≤ (B : Int))
    (hs : env.send acct.address toAddress a = some hash)
    (hr : env.receipt hash = none) :
    (transfer deriv env seedPhrase walletIndex toAddress (.decimal a)).1 =
      .error .timeout ∧
    (transfer deriv env seedPhrase walletIndex toAddress (.decimal a)).1 ≠
      .error .rejectedTransaction ∧
    (transfer deriv env seedPhrase walletIndex toAddress (.decimal a)).2 =
      [.getBalance acct.address, .getGasPrice,
       .sendTransaction acct.address toAddress a, .waitReceipt hash] ∧
    submitCount
      (transfer deriv env seedPhrase walletIndex toAddress (.decimal a)).2 = 1 := by
  have hp0 : (0 : Int) ≤ 21000 * p := by positivity
  have h1 : ¬ (B : Int) < a := by omega
  have h2 : ¬ (B : Int) < a + 21000 * p := not_lt.mpr haff
  dsimp only [transfer]
  simp [hto, hd, hB, hp, amountExceedsBalance, parseEther, h1, h2, hs, hr,
    submitCount, List.countP, List.countP.go]

/-- Witness for C9 at a concrete input: `timeoutEnv` submits successfully
and then times out waiting for the receipt. -/
theorem transfer_timeout_distinct_witness :
    isAddress validTo = true ∧
    (50 : Int) + 21000 * (1 : Nat) ≤ ((100000000 : Nat) : Int) ∧
    ((transfer demoDeriv timeoutEnv "seed" 0 validTo (.decimal 50)).1 =
       .error .timeout ∧
     (transfer demoDeriv timeoutEnv "seed" 0 validTo (.decimal 50)).1 ≠
       .error .rejectedTransaction ∧
     (transfer demoDeriv timeoutEnv "seed" 0 validTo (.decimal 50)).2 =
       [.getBalance demoAcct.address, .getGasPrice,
        .sendTransaction demoAcct.address validTo 50, .waitReceipt "0xhash"] ∧
     submitCount
       (transfer demoDeriv timeoutEnv "seed" 0 validTo (.decimal 50)).2 = 1) :=
  ⟨by decide, by decide,
   transfer_timeout_distinct demoDeriv timeoutEnv "seed" 0 validTo 50
     demoAcct 100000000 1 "0xhash" (by decide) rfl rfl rfl (by decide) rfl rfl⟩

/-- A ledger on which exactly one address's balance query fails with
`NetworkError` (the address `demoDeriv` derives for phrase `"bad"`,
index 0); every other operation succeeds. -/
def partialEnv : Oracle where
  balance := fun a => if a = "0xbad0" then none else some 100000000
  gasPrice := some 1
  send := fun _ _ _ => some "0xhash"
  receipt := fun _ => some 12

/-- A derivation that fails with `InvalidSeedPhrase` on the phrase
`"bad"` and succeeds on every other phrase. -/
def c7Deriv : String → Nat → Option Account :=
  fun p i =>
    if p = "bad" then none
    else some ⟨"0x" ++ p ++ toString i, some [7, 255]⟩

/-- C6: when the balance query of one (phrase, index) pair fails with
`NetworkError`, the scan does not raise: its result is exactly what the
remaining pairs contribute, in the canonical order. -/
theorem scan_skips_network_error
    (deriv : String → Nat → Option Account) (env : Oracle)
    (phrases : List String) (M : Nat) (p0 : String) (i0 : Nat)
    (acct : Account)
    (hd : deriv p0 i0 = some acct)
    (hfail : env.balance acct.address = none) :
    listWalletsWithBalance deriv env phrases M =
      ((scanPairs phrases M).filter (· ≠ (p0, i0))).filterMap
        (fun q => scanStep deriv env q.1 q.2) := by
  rw [scan_eq_filterMap]
  exact filterMap_skip_none _ (p0, i0)
    (by simp [scanStep, tryEntry, hd, hfail]) _

/-- Witness for C6 at a concrete input: `partialEnv` fails the balance
query of `("bad", 0)`, and the scan still returns the `("good", 0)`
entry. -/
theorem scan_skips_network_error_witness :
    demoDeriv "bad" 0 = some ⟨"0xbad0", some [7, 255]⟩ ∧
    partialEnv.balance "0xbad0" = none ∧
    listWalletsWithBalance demoDeriv partialEnv ["good", "bad"] 1 =
      ((scanPairs ["good", "bad"] 1).filter (· ≠ ("bad", 0))).filterMap
        (fun q => scanStep demoDeriv partialEnv q.1 q.2) :=
  ⟨rfl, by decide,
   scan_skips_network_error demoDeriv partialEnv ["good", "bad"] 1 "bad" 0
     ⟨"0xbad0", some [7, 255]⟩ rfl (by decide)⟩

/-- C7 counterexample: an `InvalidSeedPhrase` failure while deriving one
of the input phrases is NOT surfaced to the caller — the scanner's
catch-all per-entry handler swallows it and the scan returns normally
with the other pairs' entries. -/
theorem scan_swallows_invalid_seed_cex :
    tryEntry c7Deriv demoEnv "bad" 0 = .error .invalidSeedPhrase ∧
    listWalletsWithBalance c7Deriv demoEnv ["good", "bad"] 1 =
      [⟨"0xgood0", "100000000", "0.0000000001", 0, "good..."⟩] := by
  exact ⟨by decide, by decide⟩

/-- C7 amended: the scanner's per-entry `try/catch` recovers EVERY error
kind, not just `NetworkError`: whenever the body for one (phrase, index)
pair fails — with `InvalidSeedPhrase` from derivation as much as with
`NetworkError` from the query — the scan still returns exactly the other
pairs' entries and surfaces nothing. -/
theorem scan_recovers_all_entry_errors
    (deriv : String → Nat → Option Account) (env : Oracle)
    (phrases : List String) (M : Nat) (p0 : String) (i0 : Nat) (e : WErr)
    (herr : tryEntry deriv env p0 i0 = .error e) :
    listWalletsWithBalance deriv env phrases M =
      ((scanPairs phrases M).filter (· ≠ (p0, i0))).filterMap
        (fun q => scanStep deriv env q.1 q.2) := by
  rw [scan_eq_filterMap]
  exact filterMap_skip_none _ (p0, i0) (by simp [scanStep, herr]) _

/-- Witness for the amended C7: the `InvalidSeedPhrase` failure of
`c7Deriv` on `("bad", 0)` is recovered internally. -/
theorem scan_recovers_all_entry_errors_witness :
    tryEntry c7Deriv demoEnv "bad" 0 = .error .invalidSeedPhrase ∧
    listWalletsWithBalance c7Deriv demoEnv ["good", "bad"] 1 =
      ((scanPairs ["good", "bad"] 1).filter (· ≠ ("bad", 0))).filterMap
        (fun q => scanStep c7Deriv demoEnv q.1 q.2) :=
  ⟨by decide,
   scan_recovers_all_entry_errors c7Deriv demoEnv ["good", "bad"] 1 "bad" 0
     .invalidSeedPhrase (by decide)⟩

/-- C5 counterexample: when the input list contains the same seed phrase
twice, the scan returns an entry for the pair (phrase, 0) twice — the
enumeration itself repeats the pair — refuting "contains no pair twice"
as stated for every input list. -/
theorem scan_duplicate_phrase_cex :
    listWalletsWithBalance demoDeriv demoEnv ["w w w w", "w w w w"] 1 =
      [⟨"0xw w w w0", "100000000", "0.0000000001", 0, "w w w..."⟩,
       ⟨"0xw w w w0", "100000000", "0.0000000001", 0, "w w w..."⟩] ∧
    ¬ (scanPairs ["w w w w", "w w w w"] 1).Nodup := by
  exact ⟨by decide, by decide⟩

/-- C5 amended: the canonical enumeration has exactly N·M pairs; when
every pair's derivation and balance query succeed, the scan returns
precisely the enumeration filtered to positive balances, mapped to their
records — a subsequence of the enumeration in canonical order, with an
entry for a pair exactly when its balance is positive; it repeats no pair
provided the input phrases are pairwise distinct (a duplicated input
phrase yields one entry per occurrence, see the counterexample); and the
result never has more than N·M entries. -/
theorem scan_complete_ordered
    (deriv : String → Nat → Option Account) (env : Oracle)
    (phrases : List String) (M : Nat)
    (hok : ∀ q ∈ scanPairs phrases M, (pairBalance deriv env q).isSome) :
    (scanPairs phrases M).length = phrases.length * M ∧
    listWalletsWithBalance deriv env phrases M =
      ((scanPairs phrases M).filter fun q =>
        decide (0 < theBalance deriv env q)).map (mkInfo deriv env) ∧
    List.Sublist
      ((scanPairs phrases M).filter fun q =>
        decide (0 < theBalance deriv env q))
      (scanPairs phrases M) ∧
    (phrases.Nodup →
      ((scanPairs phrases M).filter fun q =>
        decide (0 < theBalance deriv env q)).Nodup) ∧
    (listWalletsWithBalance deriv env phrases M).length ≤
      phrases.length * M := by
  have hmain : listWalletsWithBalance deriv env phrases M =
      ((scanPairs phrases M).filter fun q =>
        decide (0 < theBalance deriv env q)).map (mkInfo deriv env) := by
    rw [scan_eq_filterMap]
    apply filterMap_eq_filter_map
    intro q hq
    rcases hb : pairBalance deriv env q with _ | b
    · exact absurd (hok q hq) (by simp [hb])
    · rcases hd : deriv q.1 q.2 with _ | a
      · rw [pairBalance, hd] at hb; cases hb
      · simp only [pairBalance, hd, Option.some_bind] at hb
        by_cases hpos : 0 < b <;>
          simp [scanStep, tryEntry, hd, hb, hpos, theBalance, pairBalance,
            mkInfo, theAddress]
  refine ⟨length_scanPairs phrases M, hmain, List.filter_sublist _,
    fun hnd => (nodup_scanPairs phrases M hnd).filter _, ?_⟩
  rw [scan_eq_filterMap]
  exact le_trans (List.length_filterMap_le _ _)
    (le_of_eq (length_scanPairs phrases M))

/-- Witness for the amended C5: two distinct phrases, one index each,
every query succeeding with balance 100000000. -/
theorem scan_complete_ordered_witness :
    (∀ q ∈ scanPairs ["good", "bad"] 1,
      (pairBalance demoDeriv demoEnv q).isSome) ∧
    ((scanPairs ["good", "bad"] 1).length = 2 * 1 ∧
    listWalletsWithBalance demoDeriv demoEnv ["good", "bad"] 1 =
      ((scanPairs ["good", "bad"] 1).filter fun q =>
        decide (0 < theBalance demoDeriv demoEnv q)).map
          (mkInfo demoDeriv demoEnv) ∧
    List.Sublist
      ((scanPairs ["good", "bad"] 1).filter fun q =>
        decide (0 < theBalance demoDeriv demoEnv q))
      (scanPairs ["good", "bad"] 1) ∧
    ((["good", "bad"] : List String).Nodup →
      ((scanPairs ["good", "bad"] 1).filter fun q =>
        decide (0 < theBalance demoDeriv demoEnv q)).Nodup) ∧
    (listWalletsWithBalance demoDeriv demoEnv ["good", "bad"] 1).length ≤
      2 * 1) :=
  ⟨fun _ _ => rfl,
   scan_complete_ordered demoDeriv demoEnv ["good", "bad"] 1 fun _ _ => rfl⟩

/-- C8: key derivation is deterministic and reads no wallet state: for a
fixed derivation function and fixed (seedPhrase, index), `getWalletAddress`
and `getPrivateKey` return the same value on any two wallet instances —
both are the projections of the single underlying derivation, so repeated
calls yield bit-identical addresses and private-key strings. -/
theorem derive_deterministic
    (deriv : String → Nat → Option Account)
    (w w' : WalletState) (seedPhrase : String) (index : Nat) :
    getWalletAddress deriv w seedPhrase index =
      getWalletAddress deriv w' seedPhrase index ∧
    getPrivateKey deriv w seedPhrase index =
      getPrivateKey deriv w' seedPhrase index ∧
    getWalletAddress deriv w seedPhrase index =
      (deriv seedPhrase index).map Account.address ∧
    getPrivateKey deriv w seedPhrase index =
      ((deriv seedPhrase index).bind fun a =>
        a.privateKey.map fun k => "0x" ++ bytesToHex k) := by
  refine ⟨rfl, rfl, rfl, ?_⟩
  unfold getPrivateKey getAccountFromSeed
  cases deriv seedPhrase index with
  | none => rfl
  | some a => cases hk : a.privateKey <;> simp [hk]

/-!
## List lemmas for the heap model
-/

theorem getD_append_length {α : Type} (l : List α) (x d : α) :
    (l ++ [x]).getD l.length d = x := by
  induction l with
  | nil => rfl
  | cons a as ih => simp [ih]

theorem getD_append_left {α : Type} (l l2 : List α) (i : Nat) (d : α)
    (hi : i < l.length) : (l ++ l2).getD i d = l.getD i d := by
  induction l generalizing i with
  | nil => cases hi
  | cons a as ih =>
    cases i with
    | zero => rfl
    | succ j => simpa using ih j (by simpa using hi)

theorem getD_set_ne {α : Type} (l : List α) (i j : Nat) (y d : α)
    (hij : i ≠ j) : (l.set i y).getD j d = l.getD j d := by
  induction l generalizing i j with
  | nil => simp [List.set]
  | cons a as ih =>
    cases i with
    | zero =>
      cases j with
      | zero => exact absurd rfl hij
      | succ j => simp [List.set]
    | succ i =>
      cases j with
      | zero => simp [List.set]
      | succ j =>
        simpa [List.set] using ih i j fun hh => hij (by rw [hh])

/-- C10: `getSeedPhrases` returns a fresh copy of the internal
seed-phrase array: the returned reference differs from the wallet's
internal one, reads back the same contents, and overwriting it with
anything leaves the contents behind the internal reference — what every
subsequent scan, transfer or derivation reads — exactly as before. -/
theorem getSeedPhrases_fresh_copy
    (h : JsHeap) (w : WalletRef) (hv : w.seedRef < h.arrays.length) :
    (getSeedPhrases h w).2 ≠ w.seedRef ∧
    heapRead (getSeedPhrases h w).1 (getSeedPhrases h w).2 =
      heapRead h w.seedRef ∧
    ∀ v : List String,
      heapRead (heapWrite (getSeedPhrases h w).1 (getSeedPhrases h w).2 v)
        w.seedRef = heapRead h w.seedRef := by
  refine ⟨fun hh => absurd (hh ▸ hv) (lt_irrefl _), ?_, fun v => ?_⟩
  · simp only [getSeedPhrases, heapAlloc, heapRead]
    exact getD_append_length _ _ _
  · simp only [getSeedPhrases, heapAlloc, heapRead, heapWrite]
    rw [getD_set_ne _ _ _ _ _ (Nat.ne_of_gt hv)]
    exact getD_append_left _ _ _ _ hv

/-- Witness for C10 at a concrete heap: a wallet whose internal array is
at reference 0 holding `["a b c"]`; the copy is allocated at reference 1
and clobbering it leaves the internal array intact. -/
theorem getSeedPhrases_fresh_copy_witness :
    (⟨0⟩ : WalletRef).seedRef < (⟨[["a b c"]]⟩ : JsHeap).arrays.length ∧
    ((getSeedPhrases ⟨[["a b c"]]⟩ ⟨0⟩).2 ≠ (⟨0⟩ : WalletRef).seedRef ∧
     heapRead (getSeedPhrases ⟨[["a b c"]]⟩ ⟨0⟩).1
        (getSeedPhrases ⟨[["a b c"]]⟩ ⟨0⟩).2 =
       heapRead ⟨[["a b c"]]⟩ (⟨0⟩ : WalletRef).seedRef ∧
     ∀ v : List String,
       heapRead
         (heapWrite (getSeedPhrases ⟨[["a b c"]]⟩ ⟨0⟩).1
           (getSeedPhrases ⟨[["a b c"]]⟩ ⟨0⟩).2 v)
         (⟨0⟩ : WalletRef).seedRef =
       heapRead ⟨[["a b c"]]⟩ (⟨0⟩ : WalletRef).seedRef) :=
  ⟨by decide, getSeedPhrases_fresh_copy ⟨[["a b c"]]⟩ ⟨0⟩ (by decide)⟩
